import Mathlib

/-!
Shallow embedding of the gradsflow training-loop engine
(`src/gradsflow/models/model.py`) and its metric tracker
(`src/gradsflow/models/tracker.py`).

Scalar values tracked by the engine are modelled as rationals (`ℚ`).
Python dictionaries that the code iterates in insertion order are
modelled as association lists.  Python object identity (needed for the
aliasing property of `Tracker.reset`) is modelled by tagging each
`TrackingValues` allocation with a fresh allocation id (`oid`), drawn
from an allocation counter `nextOid` carried by the `Tracker`.
-/

namespace Gradsflow

/-- Modelled from the spec: `ValueTracker`-style rolling-average accumulator
for one scalar stream (the class lives in `gradsflow/core/base.py`, which is
not under `src/`).  Spec §3: `{sum, count, avg, computed}` with
`avg = sum/count` when `count > 0`, `computed = false` initially. -/
structure Accumulator where
  sum : ℚ := 0
  count : ℕ := 0
  computed : Bool := false
deriving DecidableEq, Repr

/-- One `update` step: incorporate a scalar into the running average and mark
the accumulator computed (spec §4.1 `update_loss`). -/
def Accumulator.update (a : Accumulator) (v : ℚ) : Accumulator :=
  { sum := a.sum + v, count := a.count + 1, computed := true }

/-- Source `avg = sum / count` when `count > 0` (spec §3); `0` before any update,
when the spec declares the average meaningless. -/
def Accumulator.avg (a : Accumulator) : ℚ :=
  if a.count = 0 then 0 else a.sum / a.count

/-- Modelled from the spec: `TrackingValues` (`gradsflow/core/base.py`, not
under `src/`), the per-mode bundle holding a loss accumulator, a
metric-name → accumulator mapping, and the last step index
(`tracker.train.steps = step` in `model.py`).  `oid` models Python object
identity of the bundle. -/
structure TrackingValues where
  loss : Accumulator := {}
  metrics : List (String × Accumulator) := []
  steps : Option ℕ := none
  oid : ℕ := 0
deriving DecidableEq, Repr

/-- A fresh bundle, as produced by `TrackingValues()` in `Tracker.reset`. -/
def TrackingValues.init (oid : ℕ) : TrackingValues :=
  { loss := {}, metrics := [], steps := none, oid := oid }

/-- Update one metric accumulator in the insertion-ordered mapping, lazily
creating it (spec §4.1 `update_metrics`): an existing key keeps its
position, a new key is appended. -/
def updateMetricAssoc : List (String × Accumulator) → String → ℚ →
    List (String × Accumulator)
  | [], k, v => [(k, Accumulator.update {} v)]
  | (k', a) :: rest, k, v =>
      if k' = k then (k', a.update v) :: rest
      else (k', a) :: updateMetricAssoc rest k v

/-- Source `TrackingValues.update_loss` (spec §4.1). -/
def TrackingValues.update_loss (vt : TrackingValues) (v : ℚ) : TrackingValues :=
  { vt with loss := vt.loss.update v }

/-- Source `TrackingValues.update_metrics` (spec §4.1): fold every entry of the
mapping into its accumulator. -/
def TrackingValues.update_metrics (vt : TrackingValues)
    (ms : List (String × ℚ)) : TrackingValues :=
  { vt with metrics := ms.foldl (fun acc kv => updateMetricAssoc acc kv.1 kv.2) vt.metrics }

/-- A log record (`Tracker._append_logs`, tracker.py:78-82):
`{"current_epoch": epoch, key: value}`. -/
structure LogRecord where
  current_epoch : ℕ
  key : String
  value : ℚ
deriving DecidableEq, Repr

/-- The `Tracker` state (tracker.py + the `BaseTracker` fields it relies on:
`max_epochs`, `current_epoch`, `steps_per_epoch`, `train`, `val`).
`steps_per_epoch` is an optional machine integer, `none` for Python `None`.
`nextOid` is the allocation counter for fresh `TrackingValues` objects. -/
structure Tracker where
  train : TrackingValues := TrackingValues.init 0
  val : TrackingValues := TrackingValues.init 1
  current_epoch : ℕ := 0
  max_epochs : ℕ := 0
  steps_per_epoch : Option ℤ := none
  logs : List LogRecord := []
  nextOid : ℕ := 2
deriving DecidableEq, Repr

/-- A freshly constructed `Tracker` (`Tracker.__init__`, tracker.py:29-32). -/
def Tracker.init : Tracker := {}

/-- Source `Tracker.mode` (tracker.py:70-76): `"train"` and `"val"` resolve to the
respective bundle, anything else raises `KeyError`. -/
def Tracker.mode (t : Tracker) (m : String) : Except String TrackingValues :=
  if m = "train" then .ok t.train
  else if m = "val" then .ok t.val
  else .error ("mode " ++ m ++ " is not implemented!")

/-- Write-back of the in-place mutation of the bundle returned by
`Tracker.mode`; only ever used with `m ∈ {"train", "val"}`. -/
def Tracker.setMode (t : Tracker) (m : String) (vt : TrackingValues) : Tracker :=
  if m = "train" then { t with train := vt } else { t with val := vt }

/-- Source `Tracker.train_loss` property (tracker.py:54-56). -/
def Tracker.train_loss (t : Tracker) : ℚ := t.train.loss.avg

/-- Source `Tracker.val_loss` property (tracker.py:58-60). -/
def Tracker.val_loss (t : Tracker) : ℚ := t.val.loss.avg

/-- Source `Tracker._append_logs` (tracker.py:78-82). -/
def Tracker.appendLog (t : Tracker) (key : String) (v : ℚ) : Tracker :=
  { t with logs := t.logs ++ [⟨t.current_epoch, key, v⟩] }

/-- Source `Tracker.track_loss` (tracker.py:84-95), in source order: convert the
loss to a plain number, resolve the mode bundle (raising `KeyError` for an
unknown mode, before any mutation), update its loss accumulator, append a
`"{mode}/loss"` log record.  The returned pair is (raised error?, resulting
tracker state): on an error the state is whatever had been mutated before
the raise. -/
def Tracker.track_loss (t : Tracker) (loss : ℚ) (mode : String) :
    Option String × Tracker :=
  match t.mode mode with
  | .error msg => (some msg, t)
  | .ok vt =>
      let t' := t.setMode mode (vt.update_loss loss)
      (none, t'.appendLog (mode ++ "/loss") loss)

/-- Source `Tracker.track_metrics` (tracker.py:97-107): resolve the mode bundle
(raising before any mutation for an unknown mode), update the metric
accumulators, then append one `"{mode}/{name}"` log record per metric. -/
def Tracker.track_metrics (t : Tracker) (metric : List (String × ℚ))
    (mode : String) : Option String × Tracker :=
  match t.mode mode with
  | .error msg => (some msg, t)
  | .ok vt =>
      let t' := t.setMode mode (vt.update_metrics metric)
      (none, metric.foldl (fun acc kv => acc.appendLog (mode ++ "/" ++ kv.1) kv.2) t')

/-- Result type of `Tracker.__getitem__`, which returns values of different
shapes depending on the key. -/
inductive TrackerItem where
  | values (v : TrackingValues)
  | metricsView (train : List (String × Accumulator)) (val : List (String × Accumulator))
  | lossView (train : ℚ) (val : ℚ)
deriving DecidableEq, Repr

/-- Source `Tracker.__getitem__` (tracker.py:34-52): `"train"`/`"val"` resolve via
`Tracker.mode`; `"metrics"` returns `{"train": train_metrics, "val":
val_metrics}`; `"loss"` returns `{"train": train_loss, "val": val_loss}`;
any other key raises `KeyError`. -/
def Tracker.getItem (t : Tracker) (key : String) : Except String TrackerItem :=
  if key = "train" ∨ key = "val" then
    (t.mode key).map .values
  else if key = "metrics" then .ok (.metricsView t.train.metrics t.val.metrics)
  else if key = "loss" then .ok (.lossView t.train_loss t.val_loss)
  else .error ("key " ++ key ++ " is not implemented!")

/-- Source `Tracker.reset` (tracker.py:130-138): zero the epoch counters, clear
`steps_per_epoch` and the logs, and replace both bundles by freshly
allocated `TrackingValues` objects (new allocation ids). -/
def Tracker.reset (t : Tracker) : Tracker :=
  { max_epochs := 0
    current_epoch := 0
    steps_per_epoch := none
    train := TrackingValues.init t.nextOid
    val := TrackingValues.init (t.nextOid + 1)
    logs := []
    nextOid := t.nextOid + 2 }

/-- The observable state of a bundle: every field except the allocation id. -/
def TrackingValues.observable (vt : TrackingValues) :
    Accumulator × List (String × Accumulator) × Option ℕ :=
  (vt.loss, vt.metrics, vt.steps)

/-- The observable state of a `Tracker`: every field except allocation ids
and the allocation counter. -/
def Tracker.observable (t : Tracker) :
    (Accumulator × List (String × Accumulator) × Option ℕ) ×
    (Accumulator × List (String × Accumulator) × Option ℕ) ×
    ℕ × ℕ × Option ℤ × List LogRecord :=
  (t.train.observable, t.val.observable,
   t.current_epoch, t.max_epochs, t.steps_per_epoch, t.logs)

/-! ## `create_table` (tracker.py:109-128)

A table cell is either the Python `int` `current_epoch` or a `float`
(losses and metric averages); the renderer formats cells with
`f"{x: .3f}" if isinstance(x, float) else str(x)`. -/

/-- A cell of the summary table: Python `int` or `float`. -/
inductive Cell where
  | i (n : ℕ)
  | f (q : ℚ)
deriving DecidableEq, Repr

/-- Left-pad the fractional digits of `n < 1000` to width 3. -/
def pad3 (n : ℕ) : String :=
  if n < 10 then "00" ++ toString n
  else if n < 100 then "0" ++ toString n
  else toString n

/-- Round a rational to the nearest integer, ties upward: `⌊x + 1/2⌋`
computed on the numerator and denominator. -/
def roundQ (x : ℚ) : ℤ := Int.fdiv (2 * x.num + (x.den : ℤ)) (2 * (x.den : ℤ))

/-- Python `f"{q: .3f}"`: sign position (space for non-negatives), integer
part, dot, exactly three fractional digits, rounded to the nearest
thousandth (ties, which no claim exercises, round up). -/
def fmtFloat3 (q : ℚ) : String :=
  let n : ℤ := roundQ (q * 1000)
  let a : ℕ := n.natAbs
  (if n < 0 then "-" else " ") ++ toString (a / 1000) ++ "." ++ pad3 (a % 1000)

/-- The cell formatter of tracker.py:125: a `float` is rendered with
`f"{x: .3f}"`, every other value (the `int` epoch) with `str(x)`. -/
def Cell.format : Cell → String
  | .i n => toString n
  | .f q => fmtFloat3 q

/-- Source `Tracker.create_table` (tracker.py:109-128), returning the data the
rendered `rich` table is built from: the headings, the raw row and the
formatted row.  Column order: `"i"`, `"train/loss"`, `"val/loss"` only when
`val.loss.computed`, then every train metric and every val metric in
insertion order of their mappings. -/
def Tracker.create_table (t : Tracker) : List String × List Cell × List String :=
  let headings := ["i", "train/loss"] ++
    (if t.val.loss.computed then ["val/loss"] else []) ++
    t.train.metrics.map (fun kv => "train/" ++ kv.1) ++
    t.val.metrics.map (fun kv => "val/" ++ kv.1)
  let row : List Cell := [.i t.current_epoch, .f t.train_loss] ++
    (if t.val.loss.computed then [.f t.val_loss] else []) ++
    t.train.metrics.map (fun kv => .f kv.2.avg) ++
    t.val.metrics.map (fun kv => .f kv.2.avg)
  (headings, row, row.map Cell.format)

/-! ## The execution engine (`model.py`)

The engine is embedded as a trace-producing interpreter.  Every
`callback_runner.on_*` dispatch appends an `Event` to the trace and then
consults the registered callback behaviour, which may raise an exception
(`Exc`).  Batches carry no data relevant to control flow, so a dataloader
is modelled by its number of batches. -/

/-- Exceptions relevant to the engine: the two cancellation sentinels
(`gradsflow/models/exceptions.py`), `KeyboardInterrupt`, and arbitrary
other exceptions. -/
inductive Exc where
  | epochCancel
  | fitCancel
  | keyboardInterrupt
  | other (n : ℕ)
deriving DecidableEq, Repr

/-- Lifecycle events dispatched through the `CallbackRunner`.  Epoch and
train-step events carry the `tracker.current_epoch` (and step index) at
dispatch time, which a Python callback reads off the model's tracker. -/
inductive Event where
  | fit_start | fit_end
  | epoch_start (epoch : ℕ) | epoch_end (epoch : ℕ)
  | train_epoch_start | train_epoch_end
  | val_epoch_start | val_epoch_end
  | train_step_start (epoch step : ℕ) | train_step_end (epoch step : ℕ)
  | val_step_start (step : ℕ) | val_step_end (step : ℕ)
  | forward_start | forward_end
  | clean
deriving DecidableEq, Repr

/-- A callback behaviour: given the trace so far (the dispatched event
included) and the event being dispatched, optionally raise an exception
from the hook. -/
def Cb : Type := List Event → Event → Option Exc

/-- The callback behaviour that never raises. -/
def cbNone : Cb := fun _ _ => none

/-- Engine state: the tracker plus the trace of dispatched events. -/
structure EngineState where
  tracker : Tracker
  trace : List Event
deriving DecidableEq, Repr

/-- The engine monad: state passing plus Python exceptions. -/
def M (α : Type) : Type := EngineState → Except Exc α × EngineState

instance : Monad M where
  pure a := fun s => (.ok a, s)
  bind x f := fun s =>
    match x s with
    | (.ok a, s') => f a s'
    | (.error e, s') => (.error e, s')

/-- Raise an exception. -/
def M.throw (e : Exc) : M Unit := fun s => (.error e, s)

/-- Read the tracker. -/
def M.getTracker : M Tracker := fun s => (.ok s.tracker, s)

/-- Update the tracker. -/
def M.modifyTracker (f : Tracker → Tracker) : M Unit := fun s =>
  (.ok (), { s with tracker := f s.tracker })

/-- Dispatch one lifecycle event: record it on the trace, then let the
callback behaviour react, propagating anything it raises. -/
def fire (cb : Cb) (e : Event) : M Unit := fun s =>
  let tr := s.trace ++ [e]
  match cb tr e with
  | none => (.ok (), { s with trace := tr })
  | some exc => (.error exc, { s with trace := tr })

/-- Modelled from the spec: `CallbackRunner.with_event(name, body, sentinel)`
(`gradsflow/callbacks`, not under `src/`) runs `body` and swallows exactly
the designated cancellation sentinel, "a scoped catch keyed by tag
identity" (spec §9); any other exception propagates.  The `on_{name}_start`
/`on_{name}_end` dispatches of spec §4.3 are performed by the call sites in
model.py (`_fit_with_event` fires `on_fit_start`/`on_fit_end` around the
`"epoch"` scope, `epoch` fires `on_epoch_start`/`on_epoch_end` inside the
loop), consistent with spec §8 counting exactly `max_epochs` epoch pairs. -/
def withEvent (body : M Unit) (sentinel : Exc) : M Unit := fun s =>
  match body s with
  | (.error e, s') => if e = sentinel then (.ok (), s') else (.error e, s')
  | ok => ok

/-- The dataloaders of an `AutoDataset`: a train dataloader with
`train_batches` batches and an optional val dataloader. -/
structure AutoDatasetSpec where
  train_batches : ℕ
  val_batches : Option ℕ
deriving DecidableEq, Repr

/-- The loop guard of model.py:172, `if steps_per_epoch and step >=
steps_per_epoch`: Python truthiness makes `None` and `0` disable the check
entirely; otherwise the loop breaks once `step >= steps_per_epoch`. -/
def stepsLimitHit (steps_per_epoch : Option ℤ) (step : ℕ) : Bool :=
  match steps_per_epoch with
  | none => false
  | some n => if n = 0 then false else decide ((step : ℤ) ≥ n)

/-- Source `Model.step` via `forward_once` (model.py:75-79, 147-152): the forward
pass is wrapped in `on_forward_start`/`on_forward_end`. -/
def Model.step (cb : Cb) : M Unit := do
  fire cb .forward_start
  fire cb .forward_end

/-- The batch loop of `Model.train_one_epoch` (model.py:164-173): `rem`
batches remain, the next one has index `step`.  Per batch: record the step
index on `tracker.train`, dispatch `on_train_step_start`, run the train
step, dispatch `on_train_step_end`, then break in test mode or when the
`steps_per_epoch` guard fires. -/
def trainLoopAux (cb : Cb) (TEST : Bool) (spe : Option ℤ) :
    ℕ → ℕ → M Unit
  | 0, _ => pure ()
  | rem + 1, step => do
      M.modifyTracker (fun t => { t with train := { t.train with steps := some step } })
      let t ← M.getTracker
      fire cb (.train_step_start t.current_epoch step)
      Model.step cb
      fire cb (.train_step_end t.current_epoch step)
      if TEST then pure ()
      else if stepsLimitHit spe step then pure ()
      else trainLoopAux cb TEST spe rem (step + 1)

/-- Source `Model.train_one_epoch` (model.py:160-173): reads
`tracker.steps_per_epoch` once, then runs the batch loop from step 0. -/
def Model.train_one_epoch (cb : Cb) (TEST : Bool) (train_batches : ℕ) : M Unit := do
  let t ← M.getTracker
  trainLoopAux cb TEST t.steps_per_epoch train_batches 0

/-- The batch loop of `Model.val_one_epoch` (model.py:177-184): no
`steps_per_epoch` guard, test mode still breaks after the first batch. -/
def valLoopAux (cb : Cb) (TEST : Bool) : ℕ → ℕ → M Unit
  | 0, _ => pure ()
  | rem + 1, step => do
      M.modifyTracker (fun t => { t with val := { t.val with steps := some step } })
      fire cb (.val_step_start step)
      Model.step cb
      fire cb (.val_step_end step)
      if TEST then pure ()
      else valLoopAux cb TEST rem (step + 1)

/-- Source `Model.val_one_epoch` (model.py:175-184). -/
def Model.val_one_epoch (cb : Cb) (TEST : Bool) (val_batches : ℕ) : M Unit :=
  valLoopAux cb TEST val_batches 0

/-- Source `Model._train_epoch_with_event` (model.py:186-191). -/
def Model.trainEpochWithEvent (cb : Cb) (TEST : Bool) (dl : AutoDatasetSpec) : M Unit := do
  fire cb .train_epoch_start
  Model.train_one_epoch cb TEST dl.train_batches
  fire cb .train_epoch_end

/-- Source `Model._val_epoch_with_event` (model.py:193-201): skipped entirely,
no hooks fired, when the autodataset has no val dataloader. -/
def Model.valEpochWithEvent (cb : Cb) (TEST : Bool) (dl : AutoDatasetSpec) : M Unit :=
  match dl.val_batches with
  | none => pure ()
  | some n => do
      fire cb .val_epoch_start
      Model.val_one_epoch cb TEST n
      fire cb .val_epoch_end

/-- The epoch loop of `Model.epoch` (model.py:206-215) over the remaining
list of epoch indices `range(current_epoch, max_epochs)`: set
`tracker.current_epoch`, dispatch `on_epoch_start`, run the train epoch and
the val epoch with their hooks, dispatch `on_epoch_end`, and break in test
mode. -/
def epochLoopAux (cb : Cb) (TEST : Bool) (dl : AutoDatasetSpec) :
    List ℕ → M Unit
  | [] => pure ()
  | e :: rest => do
      M.modifyTracker (fun t => { t with current_epoch := e })
      let t ← M.getTracker
      fire cb (.epoch_start t.current_epoch)
      Model.trainEpochWithEvent cb TEST dl
      Model.valEpochWithEvent cb TEST dl
      fire cb (.epoch_end t.current_epoch)
      if TEST then pure ()
      else epochLoopAux cb TEST dl rest

/-- Source `Model.epoch` (model.py:203-215): reads `current_epoch` and
`max_epochs` from the tracker once, then iterates
`range(current_epoch, max_epochs)`. -/
def Model.epoch (cb : Cb) (TEST : Bool) (dl : AutoDatasetSpec) : M Unit := do
  let t ← M.getTracker
  epochLoopAux cb TEST dl (List.range' t.current_epoch (t.max_epochs - t.current_epoch))

/-- Source `Model._fit_with_event` (model.py:217-220): `on_fit_start`, then the
single `"epoch"` cancellation scope wrapping the ENTIRE epoch loop
(`with_event("epoch", self.epoch, EpochCancel)`), then `on_fit_end`. -/
def Model.fitWithEvent (cb : Cb) (TEST : Bool) (dl : AutoDatasetSpec) : M Unit := do
  fire cb .fit_start
  withEvent (Model.epoch cb TEST dl) .epochCancel
  fire cb .fit_end

/-- The tracker state just before the fit loop (model.py:258-269): reset
when `resume=False`, then store `steps_per_epoch` and `max_epochs`. -/
def fitSetupTracker (resume : Bool) (steps_per_epoch : Option ℤ)
    (max_epochs : ℕ) (t : Tracker) : Tracker :=
  let t1 := if resume then t else t.reset
  { t1 with steps_per_epoch := steps_per_epoch, max_epochs := max_epochs }

/-- Outcome of one `fit` call: normal return of the tracker, return after a
caught `KeyboardInterrupt`, or a propagated exception. -/
inductive FitOutcome where
  | completed
  | interrupted
  | errored (e : Exc)
deriving DecidableEq, Repr

/-- Dispatch of `callback_runner.clean()` (a teardown that the spec, §7,
expects not to raise). -/
def fireClean (s : EngineState) : EngineState :=
  { s with trace := s.trace ++ [.clean] }

/-- Source `Model.fit` (model.py:222-278).  `prepFault` models an exception
raised by the collaborator call `autodataset.prepare_data(...)`
(model.py:256), which happens BEFORE the `try` block: such an exception
propagates without `clean()` running.  Otherwise the tracker is set up
(reset unless `resume`), the `"fit"` cancellation scope runs
`_fit_with_event` swallowing `FitCancel`, a `KeyboardInterrupt` is caught
and logged at the fit boundary, and `clean()` runs in `finally` on every
path through the `try`. -/
def Model.fit (cb : Cb) (TEST : Bool) (dl : AutoDatasetSpec)
    (prepFault : Option Exc) (max_epochs : ℕ) (steps_per_epoch : Option ℤ)
    (resume : Bool) (t0 : Tracker) : FitOutcome × EngineState :=
  match prepFault with
  | some e => (.errored e, { tracker := t0, trace := [] })
  | none =>
      let s0 : EngineState :=
        { tracker := fitSetupTracker resume steps_per_epoch max_epochs t0, trace := [] }
      match withEvent (Model.fitWithEvent cb TEST dl) .fitCancel s0 with
      | (.ok _, s) => (.completed, fireClean s)
      | (.error .keyboardInterrupt, s) => (.interrupted, fireClean s)
      | (.error e, s) => (.errored e, fireClean s)

/-! ## Event classifiers used in the statements -/

/-- Recognizer for `on_epoch_start` dispatches. -/
def Event.isEpochStartB : Event → Bool
  | .epoch_start _ => true
  | _ => false

/-- Recognizer for `on_epoch_end` dispatches. -/
def Event.isEpochEndB : Event → Bool
  | .epoch_end _ => true
  | _ => false

/-- Recognizer for the validation epoch hooks
`on_val_epoch_start`/`on_val_epoch_end`. -/
def Event.isValHookB : Event → Bool
  | .val_epoch_start => true
  | .val_epoch_end => true
  | _ => false

/-- Recognizer for `on_train_step_start` dispatches. -/
def Event.isTrainStepStartB : Event → Bool
  | .train_step_start _ _ => true
  | _ => false

/-- Recognizer for `on_train_step_end` dispatches. -/
def Event.isTrainStepEndB : Event → Bool
  | .train_step_end _ _ => true
  | _ => false

/-- Recognizer for the `clean()` teardown dispatch. -/
def Event.isCleanB : Event → Bool
  | .clean => true
  | _ => false

/-- Events appended by the train batch loop under `cbNone`, `TEST = false`,
for `rem` remaining batches starting at index `step` in epoch `ep`. -/
def pureTrainDelta (spe : Option ℤ) (ep : ℕ) : ℕ → ℕ → List Event
  | 0, _ => []
  | rem + 1, step =>
      [.train_step_start ep step, .forward_start, .forward_end, .train_step_end ep step] ++
      (if stepsLimitHit spe step then [] else pureTrainDelta spe ep rem (step + 1))

/-- Events appended by the val batch loop under `cbNone`, `TEST = false`. -/
def pureValDelta : ℕ → ℕ → List Event
  | 0, _ => []
  | rem + 1, step =>
      [.val_step_start step, .forward_start, .forward_end, .val_step_end step] ++
      pureValDelta rem (step + 1)

/-- Events appended by `_train_epoch_with_event` under `cbNone`, `TEST = false`. -/
def pureTrainEpochDelta (spe : Option ℤ) (ep : ℕ) (n : ℕ) : List Event :=
  [.train_epoch_start] ++ pureTrainDelta spe ep n 0 ++ [.train_epoch_end]

/-- Events appended by `_val_epoch_with_event` under `cbNone`, `TEST = false`:
nothing at all when there is no val dataloader. -/
def pureValEpochDelta : Option ℕ → List Event
  | none => []
  | some n => [.val_epoch_start] ++ pureValDelta n 0 ++ [.val_epoch_end]

/-- Events appended by the epoch loop under `cbNone`, `TEST = false`, over a
list of epoch indices. -/
def pureEpochDelta (spe : Option ℤ) (dl : AutoDatasetSpec) : List ℕ → List Event
  | [] => []
  | e :: rest =>
      [.epoch_start e] ++ pureTrainEpochDelta spe e dl.train_batches ++
      pureValEpochDelta dl.val_batches ++ [.epoch_end e] ++
      pureEpochDelta spe dl rest

/-- Recognizer for events that can occur inside a train batch loop. -/
def isTrainBatchEvent : Event → Bool
  | .train_step_start _ _ => true
  | .train_step_end _ _ => true
  | .forward_start => true
  | .forward_end => true
  | _ => false

/-- Recognizer for events that can occur inside a val batch loop. -/
def isValBatchEvent : Event → Bool
  | .val_step_start _ => true
  | .val_step_end _ => true
  | .forward_start => true
  | .forward_end => true
  | _ => false

/-! ## Teardown machinery (for arbitrary callback behaviour)

`NoClean m` states that running `m` only ever appends events to the trace
and never dispatches the `clean()` teardown — whether `m` returns or
raises. -/

/-- The monadic computation appends to the trace and never fires `clean`. -/
def NoClean {α : Type} (m : M α) : Prop :=
  ∀ s : EngineState, ∃ δ : List Event,
    (m s).2.trace = s.trace ++ δ ∧ δ.countP Event.isCleanB = 0

/-! ## Claim-specific definitions -/

/-- Callback behaviour of the C1 scenario: raise the `EpochCancel` sentinel
from the first `on_train_step_end` hook of the first epoch. -/
def cbC1 : Cb := fun _ e =>
  match e with
  | .train_step_end 0 0 => some .epochCancel
  | _ => none

/-- Callback behaviour raising an ordinary (non-sentinel) exception from
the first `on_train_step_start` hook, to exercise fault propagation
through `fit`. -/
def cbRaise : Cb := fun _ e =>
  match e with
  | .train_step_start 0 0 => some (.other 7)
  | _ => none

/-- Definition following the claim C8 wording, for refinement comparison
with the code formatter `Cell.format`: every NUMERIC cell — the integer
epoch included — is formatted to three decimal places. -/
def specFormatCell : Cell → String
  | .i n => fmtFloat3 (n : ℚ)
  | .f q => fmtFloat3 q

/-! ## Theorems -/

/-! ## Run lemmas

Pointwise evaluation rules for the monad operations, and a pure
characterization of every loop of the engine when driven by the
never-raising callback behaviour `cbNone`. -/

theorem M_bind_apply {α β : Type} (x : M α) (f : α → M β) (s : EngineState) :
    (x >>= f) s = match x s with
      | (.ok a, s') => f a s'
      | (.error e, s') => (.error e, s') := rfl

theorem M_pure_apply {α : Type} (a : α) (s : EngineState) :
    (pure a : M α) s = (.ok a, s) := rfl

theorem fire_cbNone_apply (e : Event) (s : EngineState) :
    fire cbNone e s = (.ok (), { s with trace := s.trace ++ [e] }) := rfl

theorem modifyTracker_apply (f : Tracker → Tracker) (s : EngineState) :
    M.modifyTracker f s = (.ok (), { s with tracker := f s.tracker }) := rfl

theorem getTracker_apply (s : EngineState) :
    M.getTracker s = (.ok s.tracker, s) := rfl

theorem step_cbNone_apply (s : EngineState) :
    Model.step cbNone s =
      (.ok (), { s with trace := s.trace ++ [.forward_start, .forward_end] }) := by
  simp [Model.step, M_bind_apply, fire_cbNone_apply]

theorem trainLoopAux_succ_eq (spe : Option ℤ) (n step : ℕ) (s : EngineState)
    (h : stepsLimitHit spe step = false) :
    trainLoopAux cbNone false spe (n + 1) step s =
      trainLoopAux cbNone false spe n (step + 1)
        ⟨{ s.tracker with train := { s.tracker.train with steps := some step } },
         s.trace ++ [.train_step_start s.tracker.current_epoch step, .forward_start,
           .forward_end, .train_step_end s.tracker.current_epoch step]⟩ := by
  simp [trainLoopAux, M_bind_apply, fire_cbNone_apply, modifyTracker_apply,
    getTracker_apply, step_cbNone_apply, M_pure_apply, h]

theorem trainLoopAux_run (spe : Option ℤ) :
    ∀ (rem step : ℕ) (s : EngineState), ∃ st : Option ℕ,
      trainLoopAux cbNone false spe rem step s =
        (.ok (), ⟨{ s.tracker with train := { s.tracker.train with steps := st } },
                  s.trace ++ pureTrainDelta spe s.tracker.current_epoch rem step⟩) := by
  intro rem
  induction rem with
  | zero =>
      intro step s
      refine ⟨s.tracker.train.steps, ?_⟩
      simp [trainLoopAux, pureTrainDelta, M_pure_apply]
  | succ n ih =>
      intro step s
      by_cases h : stepsLimitHit spe step = true
      · refine ⟨some step, ?_⟩
        simp [trainLoopAux, M_bind_apply, fire_cbNone_apply, modifyTracker_apply,
          getTracker_apply, step_cbNone_apply, M_pure_apply, h, pureTrainDelta]
      · have h' : stepsLimitHit spe step = false := by simpa using h
        obtain ⟨st, hst⟩ := ih (step + 1)
          ⟨{ s.tracker with train := { s.tracker.train with steps := some step } },
           s.trace ++ [.train_step_start s.tracker.current_epoch step, .forward_start,
             .forward_end, .train_step_end s.tracker.current_epoch step]⟩
        refine ⟨st, ?_⟩
        rw [trainLoopAux_succ_eq spe n step s h', hst]
        simp [pureTrainDelta, h']

theorem valLoopAux_succ_eq (n step : ℕ) (s : EngineState) :
    valLoopAux cbNone false (n + 1) step s =
      valLoopAux cbNone false n (step + 1)
        ⟨{ s.tracker with val := { s.tracker.val with steps := some step } },
         s.trace ++ [.val_step_start step, .forward_start, .forward_end,
           .val_step_end step]⟩ := by
  simp [valLoopAux, M_bind_apply, fire_cbNone_apply, modifyTracker_apply,
    getTracker_apply, step_cbNone_apply, M_pure_apply]

theorem valLoopAux_run :
    ∀ (rem step : ℕ) (s : EngineState), ∃ st : Option ℕ,
      valLoopAux cbNone false rem step s =
        (.ok (), ⟨{ s.tracker with val := { s.tracker.val with steps := st } },
                  s.trace ++ pureValDelta rem step⟩) := by
  intro rem
  induction rem with
  | zero =>
      intro step s
      refine ⟨s.tracker.val.steps, ?_⟩
      simp [valLoopAux, pureValDelta, M_pure_apply]
  | succ n ih =>
      intro step s
      obtain ⟨st, hst⟩ := ih (step + 1)
        ⟨{ s.tracker with val := { s.tracker.val with steps := some step } },
         s.trace ++ [.val_step_start step, .forward_start, .forward_end,
           .val_step_end step]⟩
      refine ⟨st, ?_⟩
      rw [valLoopAux_succ_eq n step s, hst]
      simp [pureValDelta]

theorem trainEpochWithEvent_run (dl : AutoDatasetSpec) (s : EngineState) :
    ∃ st : Option ℕ,
      Model.trainEpochWithEvent cbNone false dl s =
        (.ok (), ⟨{ s.tracker with train := { s.tracker.train with steps := st } },
                  s.trace ++ pureTrainEpochDelta s.tracker.steps_per_epoch
                    s.tracker.current_epoch dl.train_batches⟩) := by
  obtain ⟨st, hst⟩ := trainLoopAux_run s.tracker.steps_per_epoch dl.train_batches 0
    ⟨s.tracker, s.trace ++ [.train_epoch_start]⟩
  refine ⟨st, ?_⟩
  simp only [Model.trainEpochWithEvent, Model.train_one_epoch, M_bind_apply,
    fire_cbNone_apply, getTracker_apply]
  rw [hst]
  simp [fire_cbNone_apply, pureTrainEpochDelta]

theorem valEpochWithEvent_run (dl : AutoDatasetSpec) (s : EngineState) :
    ∃ st : Option ℕ,
      Model.valEpochWithEvent cbNone false dl s =
        (.ok (), ⟨{ s.tracker with val := { s.tracker.val with steps := st } },
                  s.trace ++ pureValEpochDelta dl.val_batches⟩) := by
  match hdl : dl.val_batches with
  | none =>
      refine ⟨s.tracker.val.steps, ?_⟩
      simp [Model.valEpochWithEvent, hdl, pureValEpochDelta, M_pure_apply]
  | some n =>
      obtain ⟨st, hst⟩ := valLoopAux_run n 0 ⟨s.tracker, s.trace ++ [.val_epoch_start]⟩
      refine ⟨st, ?_⟩
      simp only [Model.valEpochWithEvent, hdl, Model.val_one_epoch, M_bind_apply,
        fire_cbNone_apply]
      rw [hst]
      simp [fire_cbNone_apply, pureValEpochDelta]

theorem get_bind_run {β : Type} (f : Tracker → M β) (s : EngineState) :
    (M.getTracker >>= f) s = f s.tracker s := rfl

theorem modify_bind_run {β : Type} (g : Tracker → Tracker) (f : Unit → M β)
    (s : EngineState) :
    (M.modifyTracker g >>= f) s = f () { s with tracker := g s.tracker } := rfl

theorem fire_bind_run {β : Type} (e : Event) (f : Unit → M β) (s : EngineState) :
    (fire cbNone e >>= f) s = f () { s with trace := s.trace ++ [e] } := rfl

theorem trainE_bind_run {β : Type} (dl : AutoDatasetSpec) (f : Unit → M β)
    (s : EngineState) :
    (Model.trainEpochWithEvent cbNone false dl >>= f) s =
      f () (Model.trainEpochWithEvent cbNone false dl s).2 := by
  obtain ⟨st, h⟩ := trainEpochWithEvent_run dl s
  rw [M_bind_apply, h]

theorem valE_bind_run {β : Type} (dl : AutoDatasetSpec) (f : Unit → M β)
    (s : EngineState) :
    (Model.valEpochWithEvent cbNone false dl >>= f) s =
      f () (Model.valEpochWithEvent cbNone false dl s).2 := by
  obtain ⟨st, h⟩ := valEpochWithEvent_run dl s
  rw [M_bind_apply, h]

theorem trainE_proj (dl : AutoDatasetSpec) (s : EngineState) :
    (Model.trainEpochWithEvent cbNone false dl s).1 = .ok () ∧
    (Model.trainEpochWithEvent cbNone false dl s).2.trace =
      s.trace ++ pureTrainEpochDelta s.tracker.steps_per_epoch
        s.tracker.current_epoch dl.train_batches ∧
    (Model.trainEpochWithEvent cbNone false dl s).2.tracker.steps_per_epoch =
      s.tracker.steps_per_epoch ∧
    (Model.trainEpochWithEvent cbNone false dl s).2.tracker.current_epoch =
      s.tracker.current_epoch ∧
    (Model.trainEpochWithEvent cbNone false dl s).2.tracker.logs = s.tracker.logs ∧
    (Model.trainEpochWithEvent cbNone false dl s).2.tracker.max_epochs =
      s.tracker.max_epochs := by
  obtain ⟨st, h⟩ := trainEpochWithEvent_run dl s
  rw [h]
  simp

theorem valE_proj (dl : AutoDatasetSpec) (s : EngineState) :
    (Model.valEpochWithEvent cbNone false dl s).1 = .ok () ∧
    (Model.valEpochWithEvent cbNone false dl s).2.trace =
      s.trace ++ pureValEpochDelta dl.val_batches ∧
    (Model.valEpochWithEvent cbNone false dl s).2.tracker.steps_per_epoch =
      s.tracker.steps_per_epoch ∧
    (Model.valEpochWithEvent cbNone false dl s).2.tracker.current_epoch =
      s.tracker.current_epoch ∧
    (Model.valEpochWithEvent cbNone false dl s).2.tracker.logs = s.tracker.logs ∧
    (Model.valEpochWithEvent cbNone false dl s).2.tracker.max_epochs =
      s.tracker.max_epochs := by
  obtain ⟨st, h⟩ := valEpochWithEvent_run dl s
  rw [h]
  simp

theorem epochLoopAux_cbNone (dl : AutoDatasetSpec) :
    ∀ (es : List ℕ) (s : EngineState),
      (epochLoopAux cbNone false dl es s).1 = .ok () ∧
      (epochLoopAux cbNone false dl es s).2.trace =
        s.trace ++ pureEpochDelta s.tracker.steps_per_epoch dl es ∧
      (epochLoopAux cbNone false dl es s).2.tracker.steps_per_epoch =
        s.tracker.steps_per_epoch ∧
      (epochLoopAux cbNone false dl es s).2.tracker.logs = s.tracker.logs := by
  intro es
  induction es with
  | nil =>
      intro s
      simp [epochLoopAux, pureEpochDelta, M_pure_apply]
  | cons e rest ih =>
      intro s
      simp only [epochLoopAux, modify_bind_run, get_bind_run, fire_bind_run,
        trainE_bind_run, valE_bind_run]
      simp [ih, trainE_proj, valE_proj, pureEpochDelta]

theorem modelEpoch_cbNone (dl : AutoDatasetSpec) (s : EngineState) :
    (Model.epoch cbNone false dl s).1 = .ok () ∧
    (Model.epoch cbNone false dl s).2.trace =
      s.trace ++ pureEpochDelta s.tracker.steps_per_epoch dl
        (List.range' s.tracker.current_epoch
          (s.tracker.max_epochs - s.tracker.current_epoch)) ∧
    (Model.epoch cbNone false dl s).2.tracker.steps_per_epoch =
      s.tracker.steps_per_epoch ∧
    (Model.epoch cbNone false dl s).2.tracker.logs = s.tracker.logs := by
  simp only [Model.epoch, get_bind_run]
  exact epochLoopAux_cbNone dl _ s

theorem pureTrainDelta_mem (spe : Option ℤ) (ep : ℕ) :
    ∀ (rem step : ℕ), ∀ a ∈ pureTrainDelta spe ep rem step,
      isTrainBatchEvent a = true := by
  intro rem
  induction rem with
  | zero =>
      intro step a ha
      simp [pureTrainDelta] at ha
  | succ n ih =>
      intro step a ha
      simp only [pureTrainDelta, List.cons_append, List.nil_append, List.mem_cons] at ha
      rcases ha with rfl | rfl | rfl | rfl | ha
      · rfl
      · rfl
      · rfl
      · rfl
      · split at ha
        · simp at ha
        · exact ih (step + 1) a ha

theorem pureValDelta_mem :
    ∀ (rem step : ℕ), ∀ a ∈ pureValDelta rem step, isValBatchEvent a = true := by
  intro rem
  induction rem with
  | zero =>
      intro step a ha
      simp [pureValDelta] at ha
  | succ n ih =>
      intro step a ha
      simp only [pureValDelta, List.cons_append, List.nil_append, List.mem_cons] at ha
      rcases ha with rfl | rfl | rfl | rfl | ha
      · rfl
      · rfl
      · rfl
      · rfl
      · exact ih (step + 1) a ha

theorem pureTrainEpochDelta_filter (p : Event → Bool)
    (h1 : p .train_epoch_start = false) (h2 : p .train_epoch_end = false)
    (h3 : ∀ a, isTrainBatchEvent a = true → p a = false)
    (spe : Option ℤ) (ep n : ℕ) :
    (pureTrainEpochDelta spe ep n).filter p = [] := by
  rw [List.filter_eq_nil_iff]
  intro a ha
  simp only [pureTrainEpochDelta, List.cons_append, List.nil_append,
    List.mem_cons, List.mem_append, List.not_mem_nil, or_false] at ha
  rcases ha with rfl | ha | rfl
  · simp [h1]
  · simp [h3 a (pureTrainDelta_mem spe ep n 0 a ha)]
  · simp [h2]

theorem pureValEpochDelta_filter (p : Event → Bool)
    (h1 : p .val_epoch_start = false) (h2 : p .val_epoch_end = false)
    (h3 : ∀ a, isValBatchEvent a = true → p a = false)
    (vb : Option ℕ) :
    (pureValEpochDelta vb).filter p = [] := by
  rw [List.filter_eq_nil_iff]
  intro a ha
  match vb with
  | none => simp [pureValEpochDelta] at ha
  | some n =>
      simp only [pureValEpochDelta, List.cons_append, List.nil_append,
        List.mem_cons, List.mem_append, List.not_mem_nil, or_false] at ha
      rcases ha with rfl | ha | rfl
      · simp [h1]
      · simp [h3 a (pureValDelta_mem n 0 a ha)]
      · simp [h2]

theorem pureEpochDelta_filter_epochStart (spe : Option ℤ) (dl : AutoDatasetSpec) :
    ∀ es : List ℕ,
      (pureEpochDelta spe dl es).filter Event.isEpochStartB = es.map .epoch_start := by
  intro es
  induction es with
  | nil => simp [pureEpochDelta]
  | cons e rest ih =>
      simp only [pureEpochDelta, List.cons_append, List.nil_append, List.filter_cons,
        List.filter_append, List.map_cons]
      rw [pureTrainEpochDelta_filter Event.isEpochStartB rfl rfl
          (by intro a ha; cases a <;> simp_all [isTrainBatchEvent, Event.isEpochStartB]),
        pureValEpochDelta_filter Event.isEpochStartB rfl rfl
          (by intro a ha; cases a <;> simp_all [isValBatchEvent, Event.isEpochStartB])]
      simp [Event.isEpochStartB, ih]

theorem pureEpochDelta_filter_epochEnd (spe : Option ℤ) (dl : AutoDatasetSpec) :
    ∀ es : List ℕ,
      (pureEpochDelta spe dl es).filter Event.isEpochEndB = es.map .epoch_end := by
  intro es
  induction es with
  | nil => simp [pureEpochDelta]
  | cons e rest ih =>
      simp only [pureEpochDelta, List.cons_append, List.nil_append, List.filter_cons,
        List.filter_append, List.map_cons]
      rw [pureTrainEpochDelta_filter Event.isEpochEndB rfl rfl
          (by intro a ha; cases a <;> simp_all [isTrainBatchEvent, Event.isEpochEndB]),
        pureValEpochDelta_filter Event.isEpochEndB rfl rfl
          (by intro a ha; cases a <;> simp_all [isValBatchEvent, Event.isEpochEndB])]
      simp [Event.isEpochEndB, ih]

theorem pureEpochDelta_filter_valHook (spe : Option ℤ) (dl : AutoDatasetSpec)
    (hdl : dl.val_batches = none) :
    ∀ es : List ℕ, (pureEpochDelta spe dl es).filter Event.isValHookB = [] := by
  intro es
  induction es with
  | nil => simp [pureEpochDelta]
  | cons e rest ih =>
      simp only [pureEpochDelta, List.cons_append, List.nil_append, List.filter_cons,
        List.filter_append, hdl]
      rw [pureTrainEpochDelta_filter Event.isValHookB rfl rfl
          (by intro a ha; cases a <;> simp_all [isTrainBatchEvent, Event.isValHookB])]
      simp [Event.isValHookB, pureValEpochDelta, ih]

theorem pureTrainDelta_countP_stepEnd_of_noLimit (spe : Option ℤ) (ep : ℕ)
    (hspe : ∀ step : ℕ, stepsLimitHit spe step = false) :
    ∀ (rem step : ℕ),
      (pureTrainDelta spe ep rem step).countP Event.isTrainStepEndB = rem := by
  intro rem
  induction rem with
  | zero =>
      intro step
      simp [pureTrainDelta]
  | succ n ih =>
      intro step
      simp only [pureTrainDelta, hspe, List.cons_append, List.nil_append,
        List.countP_cons]
      simp [Event.isTrainStepEndB, ih (step + 1), Nat.add_comm]

theorem noClean_pure {α : Type} (a : α) : NoClean (pure a : M α) := by
  intro s
  exact ⟨[], by simp [M_pure_apply]⟩

theorem noClean_get : NoClean M.getTracker := by
  intro s
  exact ⟨[], by simp [getTracker_apply]⟩

theorem noClean_modify (f : Tracker → Tracker) : NoClean (M.modifyTracker f) := by
  intro s
  exact ⟨[], by simp [modifyTracker_apply]⟩

theorem noClean_fire (cb : Cb) (e : Event) (he : Event.isCleanB e = false) :
    NoClean (fire cb e) := by
  intro s
  refine ⟨[e], ?_, by simp [List.countP_cons, he]⟩
  unfold fire
  rcases hcb : cb (s.trace ++ [e]) e with _ | exc <;> first | rfl | simp [hcb]

theorem noClean_bind {α β : Type} (x : M α) (f : α → M β)
    (hx : NoClean x) (hf : ∀ a, NoClean (f a)) : NoClean (x >>= f) := by
  intro s
  obtain ⟨δ1, h1, c1⟩ := hx s
  rw [M_bind_apply]
  rcases hxs : x s with ⟨r, s1⟩
  rw [hxs] at h1
  have h1' : s1.trace = s.trace ++ δ1 := h1
  cases r with
  | ok a =>
      obtain ⟨δ2, h2, c2⟩ := hf a s1
      refine ⟨δ1 ++ δ2, ?_, ?_⟩
      · show (f a s1).2.trace = s.trace ++ (δ1 ++ δ2)
        rw [h2, h1', List.append_assoc]
      · simp [List.countP_append, c1, c2]
  | error e =>
      exact ⟨δ1, h1', c1⟩

theorem noClean_withEvent (body : M Unit) (sentinel : Exc)
    (hb : NoClean body) : NoClean (withEvent body sentinel) := by
  intro s
  obtain ⟨δ, h, c⟩ := hb s
  refine ⟨δ, ?_, c⟩
  unfold withEvent
  rcases hbs : body s with ⟨r, s1⟩
  rw [hbs] at h
  cases r with
  | ok a => exact h
  | error e =>
      simp only []
      split <;> exact h

theorem noClean_ite {α : Type} (c : Prop) [Decidable c] (x y : M α)
    (hx : NoClean x) (hy : NoClean y) : NoClean (if c then x else y) := by
  by_cases h : c <;> simp [h] <;> assumption

theorem noClean_step (cb : Cb) : NoClean (Model.step cb) := by
  unfold Model.step
  exact noClean_bind _ _ (noClean_fire cb _ rfl) (fun _ => noClean_fire cb _ rfl)

theorem noClean_trainLoopAux (cb : Cb) (TEST : Bool) (spe : Option ℤ) :
    ∀ rem step : ℕ, NoClean (trainLoopAux cb TEST spe rem step) := by
  intro rem
  induction rem with
  | zero => intro step; exact noClean_pure ()
  | succ n ih =>
      intro step
      unfold trainLoopAux
      refine noClean_bind _ _ (noClean_modify _) (fun _ => ?_)
      refine noClean_bind _ _ noClean_get (fun t => ?_)
      refine noClean_bind _ _ (noClean_fire cb _ rfl) (fun _ => ?_)
      refine noClean_bind _ _ (noClean_step cb) (fun _ => ?_)
      refine noClean_bind _ _ (noClean_fire cb _ rfl) (fun _ => ?_)
      refine noClean_ite _ _ _ (noClean_pure ()) ?_
      exact noClean_ite _ _ _ (noClean_pure ()) (ih (step + 1))

theorem noClean_valLoopAux (cb : Cb) (TEST : Bool) :
    ∀ rem step : ℕ, NoClean (valLoopAux cb TEST rem step) := by
  intro rem
  induction rem with
  | zero => intro step; exact noClean_pure ()
  | succ n ih =>
      intro step
      unfold valLoopAux
      refine noClean_bind _ _ (noClean_modify _) (fun _ => ?_)
      refine noClean_bind _ _ (noClean_fire cb _ rfl) (fun _ => ?_)
      refine noClean_bind _ _ (noClean_step cb) (fun _ => ?_)
      refine noClean_bind _ _ (noClean_fire cb _ rfl) (fun _ => ?_)
      exact noClean_ite _ _ _ (noClean_pure ()) (ih (step + 1))

theorem noClean_trainE (cb : Cb) (TEST : Bool) (dl : AutoDatasetSpec) :
    NoClean (Model.trainEpochWithEvent cb TEST dl) := by
  unfold Model.trainEpochWithEvent Model.train_one_epoch
  refine noClean_bind _ _ (noClean_fire cb _ rfl) (fun _ => ?_)
  refine noClean_bind _ _ ?_ (fun _ => noClean_fire cb _ rfl)
  exact noClean_bind _ _ noClean_get (fun t => noClean_trainLoopAux cb TEST _ _ 0)

theorem noClean_valE (cb : Cb) (TEST : Bool) (dl : AutoDatasetSpec) :
    NoClean (Model.valEpochWithEvent cb TEST dl) := by
  unfold Model.valEpochWithEvent Model.val_one_epoch
  match dl.val_batches with
  | none => exact noClean_pure ()
  | some n =>
      refine noClean_bind _ _ (noClean_fire cb _ rfl) (fun _ => ?_)
      exact noClean_bind _ _ (noClean_valLoopAux cb TEST n 0)
        (fun _ => noClean_fire cb _ rfl)

theorem noClean_epochLoopAux (cb : Cb) (TEST : Bool) (dl : AutoDatasetSpec) :
    ∀ es : List ℕ, NoClean (epochLoopAux cb TEST dl es) := by
  intro es
  induction es with
  | nil => exact noClean_pure ()
  | cons e rest ih =>
      unfold epochLoopAux
      refine noClean_bind _ _ (noClean_modify _) (fun _ => ?_)
      refine noClean_bind _ _ noClean_get (fun t => ?_)
      refine noClean_bind _ _ (noClean_fire cb _ rfl) (fun _ => ?_)
      refine noClean_bind _ _ (noClean_trainE cb TEST dl) (fun _ => ?_)
      refine noClean_bind _ _ (noClean_valE cb TEST dl) (fun _ => ?_)
      refine noClean_bind _ _ (noClean_fire cb _ rfl) (fun _ => ?_)
      exact noClean_ite _ _ _ (noClean_pure ()) ih

theorem noClean_modelEpoch (cb : Cb) (TEST : Bool) (dl : AutoDatasetSpec) :
    NoClean (Model.epoch cb TEST dl) := by
  unfold Model.epoch
  exact noClean_bind _ _ noClean_get (fun t => noClean_epochLoopAux cb TEST dl _)

theorem noClean_fitWithEvent (cb : Cb) (TEST : Bool) (dl : AutoDatasetSpec) :
    NoClean (Model.fitWithEvent cb TEST dl) := by
  unfold Model.fitWithEvent
  refine noClean_bind _ _ (noClean_fire cb _ rfl) (fun _ => ?_)
  refine noClean_bind _ _ ?_ (fun _ => noClean_fire cb _ rfl)
  exact noClean_withEvent _ _ (noClean_modelEpoch cb TEST dl)

theorem withEvent_of_ok (body : M Unit) (sent : Exc) (s : EngineState)
    (h : (body s).1 = .ok ()) : withEvent body sent s = body s := by
  unfold withEvent
  rcases hbs : body s with ⟨r, s1⟩
  rw [hbs] at h
  cases r with
  | ok a => rfl
  | error e => exact absurd h (by simp)

theorem withEvent_bind_run {β : Type} (body : M Unit) (sent : Exc)
    (f : Unit → M β) (s : EngineState) (h : (body s).1 = .ok ()) :
    (withEvent body sent >>= f) s = f () (body s).2 := by
  rw [M_bind_apply, withEvent_of_ok body sent s h]
  rcases hbs : body s with ⟨r, s1⟩
  rw [hbs] at h
  cases r with
  | ok a => rfl
  | error e => exact absurd h (by simp)

theorem fitWithEvent_cbNone_proj (dl : AutoDatasetSpec) (s : EngineState) :
    (Model.fitWithEvent cbNone false dl s).1 = .ok () ∧
    (Model.fitWithEvent cbNone false dl s).2.tracker.logs = s.tracker.logs ∧
    (Model.fitWithEvent cbNone false dl s).2.trace =
      s.trace ++ [Event.fit_start] ++
        pureEpochDelta s.tracker.steps_per_epoch dl
          (List.range' s.tracker.current_epoch
            (s.tracker.max_epochs - s.tracker.current_epoch)) ++
        [Event.fit_end] := by
  unfold Model.fitWithEvent
  rw [fire_bind_run, withEvent_bind_run _ _ _ _ ((modelEpoch_cbNone dl _).1),
    fire_cbNone_apply]
  refine ⟨rfl, ?_, ?_⟩
  · simp [(modelEpoch_cbNone dl _).2.2.2]
  · simp only [(modelEpoch_cbNone dl _).2.1]

theorem fit_cbNone_run (dl : AutoDatasetSpec) (me : ℕ) (spe : Option ℤ)
    (resume : Bool) (t : Tracker) :
    (Model.fit cbNone false dl none me spe resume t).1 = .completed ∧
    (Model.fit cbNone false dl none me spe resume t).2.tracker.logs =
      (fitSetupTracker resume spe me t).logs ∧
    (Model.fit cbNone false dl none me spe resume t).2.trace =
      [Event.fit_start] ++
        pureEpochDelta spe dl
          (List.range' (fitSetupTracker resume spe me t).current_epoch
            (me - (fitSetupTracker resume spe me t).current_epoch)) ++
        [Event.fit_end, Event.clean] := by
  have h := fitWithEvent_cbNone_proj dl
    ⟨fitSetupTracker resume spe me t, []⟩
  unfold Model.fit
  dsimp only
  rw [withEvent_of_ok _ _ _ h.1]
  rcases hb : Model.fitWithEvent cbNone false dl
      ⟨fitSetupTracker resume spe me t, []⟩ with ⟨r, sres⟩
  rw [hb] at h
  cases r with
  | ok a =>
      refine ⟨rfl, h.2.1, ?_⟩
      show (fireClean sres).trace = _
      rw [fireClean]
      simp only at h
      rw [h.2.2]
      simp [fitSetupTracker]
  | error e => exact absurd h.1 (by simp)

/-! ## Claims -/

/-- C5: after `Tracker.reset`, reads of `current_epoch`, `max_epochs` and
`steps_per_epoch` yield `0`, `0` and `None`, `logs` is empty, the train and
val bundles are fresh `TrackingValues` objects distinct from the pre-reset
ones (and from each other), and reset is idempotent on the observable
state.  The hypotheses are the allocation-counter invariant: every live
bundle id is below the counter. -/
theorem C5_reset_defaults (t : Tracker)
    (h1 : t.train.oid < t.nextOid) (h2 : t.val.oid < t.nextOid) :
    t.reset.current_epoch = 0 ∧ t.reset.max_epochs = 0 ∧
    t.reset.steps_per_epoch = none ∧ t.reset.logs = [] ∧
    t.reset.train.observable = (TrackingValues.init 0).observable ∧
    t.reset.val.observable = (TrackingValues.init 0).observable ∧
    t.reset.train.oid ≠ t.train.oid ∧ t.reset.train.oid ≠ t.val.oid ∧
    t.reset.val.oid ≠ t.train.oid ∧ t.reset.val.oid ≠ t.val.oid ∧
    t.reset.train.oid ≠ t.reset.val.oid ∧
    t.reset.reset.observable = t.reset.observable := by
  refine ⟨rfl, rfl, rfl, rfl, rfl, rfl, ?_, ?_, ?_, ?_, ?_, rfl⟩ <;>
    simp [Tracker.reset, TrackingValues.init] <;> omega

/-- Witness for C5 at the freshly constructed tracker. -/
theorem C5_reset_defaults_witness :
    Tracker.init.train.oid < Tracker.init.nextOid ∧
    Tracker.init.val.oid < Tracker.init.nextOid ∧
    Tracker.init.reset.reset.observable = Tracker.init.reset.observable :=
  ⟨by decide, by decide,
   (C5_reset_defaults Tracker.init (by decide)
     (by decide)).2.2.2.2.2.2.2.2.2.2.2⟩

/-- C6: indexed access on the tracker resolves exactly the four keys
`"train"`, `"val"`, `"metrics"` and `"loss"`, and raises `KeyError` for
every other key. -/
theorem C6_getitem (t : Tracker) (k : String)
    (h1 : k ≠ "train") (h2 : k ≠ "val") (h3 : k ≠ "metrics") (h4 : k ≠ "loss") :
    t.getItem "train" = .ok (.values t.train) ∧
    t.getItem "val" = .ok (.values t.val) ∧
    t.getItem "metrics" = .ok (.metricsView t.train.metrics t.val.metrics) ∧
    t.getItem "loss" = .ok (.lossView t.train_loss t.val_loss) ∧
    t.getItem k = .error ("key " ++ k ++ " is not implemented!") := by
  refine ⟨?_, ?_, ?_, ?_, ?_⟩ <;>
    simp [Tracker.getItem, Tracker.mode, Except.map, h1, h2, h3, h4]

/-- Witness for C6 at the fresh tracker and the key `"steps"`. -/
theorem C6_getitem_witness :
    (("steps" : String) ≠ "train" ∧ ("steps" : String) ≠ "val" ∧
     ("steps" : String) ≠ "metrics" ∧ ("steps" : String) ≠ "loss") ∧
    Tracker.init.getItem "steps" = .error "key steps is not implemented!" :=
  ⟨⟨by decide, by decide, by decide, by decide⟩,
   (C6_getitem Tracker.init "steps" (by decide) (by decide) (by decide)
     (by decide)).2.2.2.2⟩

/-- C10: `track_loss` and `track_metrics` with a mode other than `"train"`
or `"val"` raise `KeyError` and leave the tracker unchanged: the mode
lookup fails before any mutation, so no log record is appended and no
accumulator is touched. -/
theorem C10_bad_mode (t : Tracker) (loss : ℚ) (ms : List (String × ℚ))
    (m : String) (h1 : m ≠ "train") (h2 : m ≠ "val") :
    t.track_loss loss m = (some ("mode " ++ m ++ " is not implemented!"), t) ∧
    t.track_metrics ms m = (some ("mode " ++ m ++ " is not implemented!"), t) := by
  constructor <;>
    simp [Tracker.track_loss, Tracker.track_metrics, Tracker.mode, h1, h2]

/-- Witness for C10 at the fresh tracker and the mode `"test"`. -/
theorem C10_bad_mode_witness :
    (("test" : String) ≠ "train" ∧ ("test" : String) ≠ "val") ∧
    Tracker.init.track_loss 1 "test" =
      (some "mode test is not implemented!", Tracker.init) ∧
    Tracker.init.track_metrics [("accuracy", 1)] "test" =
      (some "mode test is not implemented!", Tracker.init) :=
  ⟨⟨by decide, by decide⟩,
   C10_bad_mode Tracker.init 1 [("accuracy", 1)] "test" (by decide) (by decide)⟩

/-- C8 counterexample: the epoch cell is numeric (a Python `int`) but is
rendered with `str`, not with the three-decimal float format, because the
formatter checks `isinstance(x, float)`: at `current_epoch = 2` the first
formatted cell is `"2"`, not `" 2.000"`. -/
theorem C8_claim_false :
    (({ Tracker.init with current_epoch := 2 } : Tracker).create_table).2.2.head? =
      some "2" ∧
    specFormatCell (.i 2) = " 2.000" ∧
    (({ Tracker.init with current_epoch := 2 } : Tracker).create_table).2.2.head? ≠
      some (specFormatCell (.i 2)) := by
  have h1 : ((2 : ℕ) : ℚ) * 1000 = 2000 := by norm_num
  have h2 : roundQ (2000 : ℚ) = 2000 := by
    unfold roundQ
    norm_num
    decide
  have hspec : specFormatCell (.i 2) = " 2.000" := by
    show fmtFloat3 ((2 : ℕ) : ℚ) = " 2.000"
    unfold fmtFloat3
    rw [h1, h2]
    decide
  have hhead :
      (({ Tracker.init with current_epoch := 2 } : Tracker).create_table).2.2.head? =
        some "2" := rfl
  refine ⟨hhead, hspec, ?_⟩
  rw [hhead, hspec]
  decide

/-- C8 amended: `create_table` renders one row with the columns in the
fixed order epoch, train loss, val loss (only when any val loss has been
computed), train metric averages, val metric averages — metrics in
insertion order — where FLOAT cells are formatted to three decimal places
and every other cell (the integer epoch) is stringified with `str`. -/
theorem C8_amended (t : Tracker) :
    (t.create_table).1 = ["i", "train/loss"] ++
      (if t.val.loss.computed then ["val/loss"] else []) ++
      t.train.metrics.map (fun kv => "train/" ++ kv.1) ++
      t.val.metrics.map (fun kv => "val/" ++ kv.1) ∧
    (t.create_table).2.1 = [Cell.i t.current_epoch, Cell.f t.train_loss] ++
      (if t.val.loss.computed then [Cell.f t.val_loss] else []) ++
      t.train.metrics.map (fun kv => Cell.f kv.2.avg) ++
      t.val.metrics.map (fun kv => Cell.f kv.2.avg) ∧
    (t.create_table).2.2 = ((t.create_table).2.1).map Cell.format ∧
    Cell.format (.i t.current_epoch) = toString t.current_epoch ∧
    ∀ q : ℚ, Cell.format (.f q) = fmtFloat3 q :=
  ⟨rfl, rfl, rfl, rfl, fun _ => rfl⟩

/-- C1 counterexample: with two epochs, no val loader and a callback that
raises `EpochCancel` at the first `on_train_step_end` of the first epoch,
only ONE `on_epoch_start` fires (the second epoch never runs, because the
`"epoch"` cancellation scope of `_fit_with_event` wraps the whole epoch
loop) and NO `on_epoch_end` fires, contradicting the claim that the
epoch-end hooks still fire and the remaining epochs execute. -/
theorem C1_claim_false :
    ((Model.fit cbC1 false ⟨3, none⟩ none 2 none true Tracker.init).2.trace.countP
        Event.isEpochStartB = 1) ∧
    ((Model.fit cbC1 false ⟨3, none⟩ none 2 none true Tracker.init).2.trace.countP
        Event.isEpochEndB = 0) ∧
    ¬((Model.fit cbC1 false ⟨3, none⟩ none 2 none true Tracker.init).2.trace.countP
        Event.isEpochStartB = 2) := by
  refine ⟨rfl, rfl, ?_⟩
  decide

/-- C1 amended: raising `EpochCancel` during a hook of an epoch terminates
that epoch early AND skips all remaining epochs — the `"epoch"` scope
wraps the entire epoch loop, not a single epoch — and the canceled epoch's
train-epoch-end and epoch-end hooks do not fire; the cancellation still
does not propagate to the fit scope: `on_fit_end` and `clean()` fire and
fit completes normally. -/
theorem C1_amended :
    (Model.fit cbC1 false ⟨3, none⟩ none 2 none true Tracker.init).1 =
      .completed ∧
    (Model.fit cbC1 false ⟨3, none⟩ none 2 none true Tracker.init).2.trace =
      [.fit_start, .epoch_start 0, .train_epoch_start, .train_step_start 0 0,
       .forward_start, .forward_end, .train_step_end 0 0, .fit_end, .clean] :=
  ⟨rfl, rfl⟩

/-- C2 counterexample: with `steps_per_epoch = 2` and a loader of 5
batches, the number of executed train steps is NOT 2 (it is 3: the break
`step >= steps_per_epoch` is evaluated only after the step with index 2
has already run). -/
theorem C2_claim_false :
    ¬((Model.fit cbNone false ⟨5, none⟩ none 1 (some 2) true
        Tracker.init).2.trace.countP Event.isTrainStepEndB = 2) := by
  rw [(fit_cbNone_run ⟨5, none⟩ 1 (some 2) true Tracker.init).2.2]
  decide

/-- C2 amended: with TEST mode off, `steps_per_epoch = 2` and a train
dataloader yielding 5 batches, `train_one_epoch` executes exactly 3 train
steps (step indices 0, 1 and 2, the bound acting inclusively) before
terminating the batch loop. -/
theorem C2_amended :
    ((Model.fit cbNone false ⟨5, none⟩ none 1 (some 2) true
        Tracker.init).2.trace.countP Event.isTrainStepStartB = 3) ∧
    ((Model.fit cbNone false ⟨5, none⟩ none 1 (some 2) true
        Tracker.init).2.trace.countP Event.isTrainStepEndB = 3) := by
  rw [(fit_cbNone_run ⟨5, none⟩ 1 (some 2) true Tracker.init).2.2]
  constructor <;> decide

/-- C3: for a fresh tracker (`current_epoch = 0`), TEST mode off and an
autodataset without a val dataloader, the epoch loop with `max_epochs = 3`
fires exactly the pairs `on_epoch_start 0,1,2` / `on_epoch_end 0,1,2` in
order (the payload is `tracker.current_epoch` at dispatch time, set just
before each `on_epoch_start`) and zero validation-epoch hooks — for every
train dataloader size and every `steps_per_epoch` value. -/
theorem C3_epoch_hooks (n : ℕ) (spe : Option ℤ) :
    ((Model.epoch cbNone false ⟨n, none⟩
        ⟨{ Tracker.init with max_epochs := 3, steps_per_epoch := spe },
         []⟩).2.trace.filter Event.isEpochStartB =
      [.epoch_start 0, .epoch_start 1, .epoch_start 2]) ∧
    ((Model.epoch cbNone false ⟨n, none⟩
        ⟨{ Tracker.init with max_epochs := 3, steps_per_epoch := spe },
         []⟩).2.trace.filter Event.isEpochEndB =
      [.epoch_end 0, .epoch_end 1, .epoch_end 2]) ∧
    ((Model.epoch cbNone false ⟨n, none⟩
        ⟨{ Tracker.init with max_epochs := 3, steps_per_epoch := spe },
         []⟩).2.trace.countP Event.isValHookB = 0) := by
  have h := (modelEpoch_cbNone ⟨n, none⟩
    ⟨{ Tracker.init with max_epochs := 3, steps_per_epoch := spe }, []⟩).2.1
  simp only [Tracker.init] at h ⊢
  rw [show List.range' 0 (3 - 0) = [0, 1, 2] from by decide] at h
  rw [List.nil_append] at h
  refine ⟨?_, ?_, ?_⟩
  · rw [h, pureEpochDelta_filter_epochStart]
    rfl
  · rw [h, pureEpochDelta_filter_epochEnd]
    rfl
  · rw [h, List.countP_eq_length_filter, pureEpochDelta_filter_valHook spe _ rfl]
    rfl

/-- C9: `steps_per_epoch = 0` does not stop the epoch after zero steps:
the guard tests Python truthiness first, so 0 behaves exactly like `None`
— the limit check is disabled and every batch of the train dataloader is
consumed (shown for every dataloader size on `train_one_epoch`, and on a
full `fit` with 5 batches). -/
theorem C9_steps_per_epoch_zero :
    (∀ step : ℕ, stepsLimitHit (some 0) step = stepsLimitHit none step) ∧
    (∀ n : ℕ,
      (Model.train_one_epoch cbNone false n
        ⟨{ Tracker.init with steps_per_epoch := some 0 }, []⟩).2.trace.countP
        Event.isTrainStepEndB = n) ∧
    ((Model.fit cbNone false ⟨5, none⟩ none 1 (some 0) true
        Tracker.init).2.trace.countP Event.isTrainStepEndB = 5) := by
  refine ⟨fun step => by simp [stepsLimitHit], ?_, ?_⟩
  case refine_2 =>
    rw [(fit_cbNone_run ⟨5, none⟩ 1 (some 0) true Tracker.init).2.2]
    decide
  intro n
  simp only [Model.train_one_epoch, get_bind_run]
  obtain ⟨st, hrun⟩ := trainLoopAux_run (some 0) n 0
    ⟨{ Tracker.init with steps_per_epoch := some 0 }, []⟩
  show (trainLoopAux cbNone false (some 0) n 0
    ⟨{ Tracker.init with steps_per_epoch := some 0 },
     []⟩).2.trace.countP Event.isTrainStepEndB = n
  rw [hrun]
  simp only [List.nil_append]
  exact pureTrainDelta_countP_stepEnd_of_noLimit (some 0) _
    (fun step => by simp [stepsLimitHit]) n 0

theorem withEvent_no_sentinel (body : M Unit) (sent : Exc) (s : EngineState)
    (r : Exc) (sres : EngineState)
    (hw : withEvent body sent s = (.error r, sres)) : r ≠ sent := by
  unfold withEvent at hw
  rcases hbs : body s with ⟨rb, s1⟩
  rw [hbs] at hw
  cases rb with
  | ok a => exact absurd hw (by simp)
  | error e =>
      dsimp only at hw
      by_cases he : e = sent
      · rw [if_pos he] at hw
        exact absurd hw (by simp)
      · rw [if_neg he] at hw
        injection hw with hw1 hw2
        injection hw1 with hw1
        rw [← hw1]
        exact he

/-- C4 counterexample: an exception raised by the collaborator call
`autodataset.prepare_data(...)` (model.py:256) happens BEFORE the
`try`/`finally` block of `fit`, so it propagates without
`callback_runner.clean()` ever being invoked — contradicting the claim
that `clean()` runs exactly once on EVERY exit path of `fit`, including
any exception raised by a collaborator. -/
theorem C4_claim_false :
    ((Model.fit cbNone false ⟨1, none⟩ (some (.other 0)) 1 none true
        Tracker.init).2.trace.countP Event.isCleanB = 0) ∧
    ((Model.fit cbNone false ⟨1, none⟩ (some (.other 0)) 1 none true
        Tracker.init).1 = .errored (.other 0)) :=
  ⟨rfl, rfl⟩

theorem withEvent_of_body_ok {body : M Unit} {sent : Exc} {s : EngineState}
    {a : Unit} {sb : EngineState} (hb : body s = (.ok a, sb)) :
    withEvent body sent s = (.ok a, sb) := by
  unfold withEvent
  rw [hb]

theorem withEvent_of_body_sentinel {body : M Unit} {sent : Exc}
    {s : EngineState} {sb : EngineState} (hb : body s = (.error sent, sb)) :
    withEvent body sent s = (.ok (), sb) := by
  unfold withEvent
  rw [hb]
  simp

theorem withEvent_of_body_error {body : M Unit} {sent : Exc}
    {s : EngineState} {e : Exc} {sb : EngineState}
    (hb : body s = (.error e, sb)) (he : e ≠ sent) :
    withEvent body sent s = (.error e, sb) := by
  unfold withEvent
  rw [hb]
  simp [he]

/-- C4 amended: on every exit path of the `try` region of `fit` — normal
completion, fit-scope cancellation, `KeyboardInterrupt`, or any other
exception raised by a callback hook or collaborator inside the fitting
loop — `clean()` is invoked exactly once, as the last dispatch, and the
outcome is exactly determined by what the fitting region did: normal
completion or a raised `FitCancel` return normally, a raised
`KeyboardInterrupt` is caught at the fit boundary (never surfaced as a
propagated error), and any other non-sentinel exception propagates to the
caller as the fit outcome, after teardown.  Exceptions raised during
pre-run setup (`prepare_data`) are the exception: they propagate without
teardown. -/
theorem C4_teardown (cb : Cb) (TEST : Bool) (dl : AutoDatasetSpec) (me : ℕ)
    (spe : Option ℤ) (resume : Bool) (t0 : Tracker) :
    (∃ pre, (Model.fit cb TEST dl none me spe resume t0).2.trace =
        pre ++ [Event.clean] ∧ pre.countP Event.isCleanB = 0) ∧
    ((Model.fit cb TEST dl none me spe resume t0).2.trace.countP
        Event.isCleanB = 1) ∧
    ((Model.fit cb TEST dl none me spe resume t0).1 ≠ .errored .fitCancel) ∧
    ((Model.fit cb TEST dl none me spe resume t0).1 ≠
      .errored .keyboardInterrupt) ∧
    ((Model.fitWithEvent cb TEST dl
        ⟨fitSetupTracker resume spe me t0, []⟩).1 = .ok () →
      (Model.fit cb TEST dl none me spe resume t0).1 = .completed) ∧
    ((Model.fitWithEvent cb TEST dl
        ⟨fitSetupTracker resume spe me t0, []⟩).1 =
          .error .keyboardInterrupt →
      (Model.fit cb TEST dl none me spe resume t0).1 = .interrupted) ∧
    (∀ e : Exc, e ≠ .fitCancel → e ≠ .keyboardInterrupt →
      (Model.fitWithEvent cb TEST dl
        ⟨fitSetupTracker resume spe me t0, []⟩).1 = .error e →
      (Model.fit cb TEST dl none me spe resume t0).1 = .errored e) := by
  obtain ⟨δ, hδ, hc⟩ := noClean_fitWithEvent cb TEST dl
    ⟨fitSetupTracker resume spe me t0, []⟩
  unfold Model.fit
  dsimp only
  rcases hb : Model.fitWithEvent cb TEST dl
      ⟨fitSetupTracker resume spe me t0, []⟩ with ⟨rb, sb⟩
  rw [hb] at hδ
  have hδ' : sb.trace = δ := by simpa using hδ
  have hpre : (∃ pre, (fireClean sb).trace = pre ++ [Event.clean] ∧
      pre.countP Event.isCleanB = 0) ∧
      (fireClean sb).trace.countP Event.isCleanB = 1 := by
    refine ⟨⟨sb.trace, rfl, by rw [hδ']; exact hc⟩, ?_⟩
    show (sb.trace ++ [Event.clean]).countP Event.isCleanB = 1
    rw [List.countP_append, hδ', hc]
    rfl
  cases rb with
  | ok a =>
      rw [withEvent_of_body_ok hb]
      exact ⟨hpre.1, hpre.2, by simp, by simp, fun _ => rfl,
        fun h => by simp at h, fun e h1 h2 h3 => by simp at h3⟩
  | error eb =>
      by_cases hsent : eb = Exc.fitCancel
      · subst hsent
        rw [withEvent_of_body_sentinel hb]
        exact ⟨hpre.1, hpre.2, by simp, by simp, fun _ => rfl,
          fun h => by simp at h,
          fun e h1 h2 h3 => absurd (by simpa using h3.symm) h1⟩
      · rw [withEvent_of_body_error hb hsent]
        cases eb with
        | epochCancel =>
            refine ⟨hpre.1, hpre.2, by simp, by simp,
              fun h => by simp at h, fun h => by simp at h, ?_⟩
            intro e h1 h2 h3
            simp only [Except.error.injEq] at h3
            rw [← h3]
        | fitCancel => exact absurd rfl hsent
        | keyboardInterrupt =>
            exact ⟨hpre.1, hpre.2, by simp, by simp,
              fun h => by simp at h, fun _ => rfl,
              fun e h1 h2 h3 => absurd (by simpa using h3.symm) h2⟩
        | other k =>
            refine ⟨hpre.1, hpre.2, by simp, by simp,
              fun h => by simp at h, fun h => by simp at h, ?_⟩
            intro e h1 h2 h3
            simp only [Except.error.injEq] at h3
            rw [← h3]

/-- Witness for C4: the callback raising the ordinary exception `other 7`
from the first train-step hook makes the fitting region raise it, and
`fit` propagates exactly that exception as its outcome while `clean()`
still fires exactly once. -/
theorem C4_teardown_witness :
    (Exc.other 7 ≠ Exc.fitCancel) ∧ (Exc.other 7 ≠ Exc.keyboardInterrupt) ∧
    (Model.fitWithEvent cbRaise false ⟨1, none⟩
      ⟨fitSetupTracker true none 1 Tracker.init, []⟩).1 =
        .error (.other 7) ∧
    (Model.fit cbRaise false ⟨1, none⟩ none 1 none true Tracker.init).1 =
      .errored (.other 7) ∧
    (Model.fit cbRaise false ⟨1, none⟩ none 1 none true
      Tracker.init).2.trace.countP Event.isCleanB = 1 :=
  ⟨by decide, by decide, rfl,
   (C4_teardown cbRaise false ⟨1, none⟩ 1 none true Tracker.init).2.2.2.2.2.2
     (.other 7) (by decide) (by decide) rfl,
   (C4_teardown cbRaise false ⟨1, none⟩ 1 none true Tracker.init).2.1⟩

/-- C7: `fit` with `resume=True` performs no reset before the epoch loop —
the tracker entering the loop keeps `current_epoch`, `logs` and both
accumulator bundles from the previous call — while `resume=False` resets
the tracker first, so the run starts from a clean tracker with no prior
epoch, loss, metric or log history (and after a full `fit` run the logs
are still the preserved, respectively empty, ones). -/
theorem C7_resume (t : Tracker) (spe : Option ℤ) (me : ℕ)
    (dl : AutoDatasetSpec) :
    (fitSetupTracker true spe me t).current_epoch = t.current_epoch ∧
    (fitSetupTracker true spe me t).logs = t.logs ∧
    (fitSetupTracker true spe me t).train = t.train ∧
    (fitSetupTracker true spe me t).val = t.val ∧
    (fitSetupTracker false spe me t).current_epoch = 0 ∧
    (fitSetupTracker false spe me t).logs = [] ∧
    (fitSetupTracker false spe me t).train.observable =
      (TrackingValues.init 0).observable ∧
    (fitSetupTracker false spe me t).val.observable =
      (TrackingValues.init 0).observable ∧
    (Model.fit cbNone false dl none me spe true t).2.tracker.logs = t.logs ∧
    (Model.fit cbNone false dl none me spe false t).2.tracker.logs = [] := by
  refine ⟨rfl, rfl, rfl, rfl, rfl, rfl, rfl, rfl, ?_, ?_⟩
  · rw [(fit_cbNone_run dl me spe true t).2.1]
    rfl
  · rw [(fit_cbNone_run dl me spe false t).2.1]
    rfl

end Gradsflow
